import Mathlib

/-!
# The issue view command (commands/issue_view.go)

A shallow embedding of the `RunE` closure of `issueViewCmd` and of
`prettifyNilEmptyValues`.  The command talks to the outside world (remote
fetches, the browser, the terminal, the clock); every such call is recorded
as an `Effect` in the trace of a `Run`, and the answers of the outside world
are the fields of an `Env`.  A nil-pointer dereference ends the run with the
outcome `panicked`.
-/

namespace Glab

/-! ## Values, tables and the fetched data -/

/-- A Go value of static type `interface{}`: the untyped nil, a `string`, a
`bool`, an `int`, or a value of any other dynamic type (named by its type and
its printed form; a typed nil pointer is one of these). -/
inductive Value where
  | nil
  | str (s : String)
  | bool (b : Bool)
  | int (n : Int)
  | other (typeName : String) (repr : String)
  deriving DecidableEq, Repr

/-- A row of a `uitable` table: the cells handed to `AddRow`. -/
abbrev Row := List Value

/-- The part of a `uitable.Table` that the command sets. -/
structure Table where
  MaxColWidth : Nat
  Wrap : Bool
  Rows : List Row
  deriving DecidableEq, Repr

/-- The result of `uitable.New()`: no rows, no width limit, no wrapping. -/
def Table.new : Table := ⟨0, false, []⟩

/-- The method `table.AddRow(cells...)`: the row is appended. -/
def Table.AddRow (t : Table) (cells : Row) : Table :=
  { t with Rows := t.Rows ++ [cells] }

/-- Errors are carried as their message. -/
abbrev Error := String

/-- A point in time (`time.Time`), as a number of ticks. -/
abbrev Time := Int

/-- A span of time (`time.Duration`). -/
abbrev Duration := Int

/-- A user as the remote service reports one: login and display name. -/
structure User where
  Username : String
  Name : String
  deriving DecidableEq, Repr

/-- The field `References` of an issue. -/
structure IssueReferences where
  Full : String
  deriving DecidableEq, Repr

/-- Modelled from the spec: the type of a fetched issue (`gitlab.Issue`) is
declared by the GitLab client library, outside this file.  The fields read by
the command are kept under the names the code uses, with the types the library
gives them: `Author`, `CreatedAt`, `ClosedAt`, `ClosedBy`, `Milestone`,
`DueDate`, `References` and the entries of `Assignees` are pointers that may
be nil; `Weight` is an int, 0 when the issue has no weight.  What `Milestone`
and `DueDate` point to is carried by its printed form. -/
structure Issue where
  IID : Int
  ProjectID : Int
  Title : String
  Description : String
  State : String
  Author : Option User
  CreatedAt : Option Time
  ClosedAt : Option Time
  ClosedBy : Option User
  Upvotes : Int
  Downvotes : Int
  UserNotesCount : Int
  Labels : List String
  Assignees : List (Option User)
  Milestone : Option String
  DueDate : Option String
  Weight : Int
  Confidential : Bool
  DiscussionLocked : Bool
  Subscribed : Bool
  References : Option IssueReferences
  WebURL : String
  deriving DecidableEq, Repr

/-- Modelled from the spec: a discussion note as declared by the GitLab client
library.  The author and the creation timestamp may be absent. -/
structure Note where
  Author : Option User
  Body : String
  CreatedAt : Option Time
  System : Bool
  deriving DecidableEq, Repr

/-- The options of a notes listing (`gitlab.ListIssueNotesOptions`); the zero
value of every field means that the field is not set. -/
structure ListIssueNotesOptions where
  Page : Int
  PerPage : Int
  OrderBy : Option String
  SortOrder : Option String
  deriving DecidableEq, Repr

/-- The value `&gitlab.ListIssueNotesOptions{}`. -/
def ListIssueNotesOptions.zero : ListIssueNotesOptions := ⟨0, 0, none, none⟩

/-- The flags of the command, as `cmd.Flags()` gives them. -/
structure Flags where
  repo : String
  comments : Bool
  web : Bool
  page : Int
  perPage : Int
  deriving DecidableEq, Repr

/-- The flag defaults registered by `init` (lines 162-169). -/
def initFlags : Flags :=
  { repo := "", comments := false, web := false, page := 1, perPage := 20 }

/-- A browser command built by `browser.Command`, named by its command line. -/
abbrev BrowserCmd := String

/-! ## Effects and runs -/

/-- A nil-pointer dereference, named by the expression dereferenced. -/
inductive Panic where
  | nilDeref (expr : String)
  deriving DecidableEq, Repr

/-- One call to the outside world, with its arguments. -/
inductive Effect where
  | cmdErr (args : List String)
  | getIssue (repo : String) (pid : Int)
  | browserCommand (url : String)
  | browserRun (cmd : BrowserCmd)
  | listIssueNotes (repo : String) (pid : Int) (opt : ListIssueNotesOptions)
  | colorPrintf (format : String) (args : List Value)
  | println (s : String)
  | printlnTable (t : Table)
  | printlnBlank
  deriving DecidableEq, Repr

/-- How an invocation ends: it returns (an error or nil), or it panics. -/
inductive Outcome where
  | returned (err : Option Error)
  | panicked (p : Panic)
  deriving DecidableEq, Repr

/-- An invocation: the effects in the order they happen, and the end. -/
structure Run where
  trace : List Effect
  outcome : Outcome
  deriving DecidableEq, Repr

/-- A stretch of the command body: the effects made, and the panic that cut it
short, if any. -/
structure Fragment where
  trace : List Effect
  panic : Option Panic
  deriving DecidableEq, Repr

/-- The collaborators of the command.  `stringToInt`, `ambientRepo`,
`prettyTimeAgo`, `timeToPrettyTimeAgo`, `renderMarkdown` and `browserCommand`
are helpers of other packages of the repository; the rest belongs to
libraries.  `now k` is the answer of the k-th call of `time.Now()`. -/
structure Env where
  stringToInt : String → Int
  ambientRepo : String
  getIssue : String → Int → Except Error Issue
  browserCommand : String → Except Error BrowserCmd
  browserRun : BrowserCmd → Option Error
  listIssueNotes : String → Int → ListIssueNotesOptions → Except Error (List Note)
  now : Nat → Time
  sub : Time → Time → Duration
  prettyTimeAgo : Duration → String
  timeToPrettyTimeAgo : Time → String
  renderMarkdown : String → String
  green : String → String
  red : String → String
  gray : String → String
  heredocDoc : String → String

/-! ## The code -/

/-- The function `prettifyNilEmptyValues` (lines 152-160). -/
def prettifyNilEmptyValues (value : Value) (defVal : String) : Value :=
  if value = Value.nil ∨ value = Value.str "" then Value.str defVal
  else if value = Value.bool false then Value.bool false
  else value

/-- The library function `strings.Trim(s, cutset)`: `s` without its leading and
trailing characters that occur in `cutset`. -/
def stringsTrim (s cutset : String) : String :=
  ⟨((s.data.dropWhile (fun c => decide (c ∈ cutset.data))).rdropWhile
      (fun c => decide (c ∈ cutset.data)))⟩

/-- The loop over the labels and the trim after it (lines 73-77). -/
def labelsText (labels : List String) : String :=
  stringsTrim (labels.foldl (fun acc l => acc ++ (" " ++ l ++ ",")) "") ", "

/-- A pointer of type `typeName` converted to `interface{}`: a value of that
dynamic type, also when the pointer is nil (it is never the untyped nil).
`target` is the printed form of what it points to; a nil pointer prints as
`<nil>`. -/
def pointerValue (typeName : String) (target : Option String) : Value :=
  Value.other typeName (target.getD "<nil>")

/-- The loop over the assignees (lines 80-82), started on the text `acc`; every
entry is dereferenced. -/
def assigneesLoop : String → List (Option User) → Except Panic String
  | acc, [] => Except.ok acc
  | _, none :: _ => Except.error (Panic.nilDeref "a")
  | acc, some a :: rest =>
    assigneesLoop (acc ++ (" " ++ a.Username ++ "(" ++ a.Name ++ "),")) rest

/-- The loop over the assignees and the trim after it (lines 79-83). -/
def assigneesText (assignees : List (Option User)) : Except Panic String :=
  match assigneesLoop "" assignees with
  | Except.error p => Except.error p
  | Except.ok text => Except.ok (stringsTrim text ", ")

/-- The nine rows added unconditionally at lines 84-95, `assignees` being the
text of line 83. -/
def baseTable (issue : Issue) (assignees : String) : Table :=
  let table := { Table.new with MaxColWidth := 70, Wrap := true }
  let table := table.AddRow [Value.str "Project ID:", Value.int issue.ProjectID]
  let table := table.AddRow
    [Value.str "Labels:", prettifyNilEmptyValues (Value.str (labelsText issue.Labels)) "None"]
  let table := table.AddRow
    [Value.str "Milestone:",
      prettifyNilEmptyValues (pointerValue "*gitlab.Milestone" issue.Milestone) "None"]
  let table := table.AddRow
    [Value.str "Assignees:", prettifyNilEmptyValues (Value.str assignees) "None"]
  let table := table.AddRow
    [Value.str "Due date:",
      prettifyNilEmptyValues (pointerValue "*gitlab.ISOTime" issue.DueDate) "None"]
  let table := table.AddRow
    [Value.str "Weight:", prettifyNilEmptyValues (Value.int issue.Weight) "None"]
  let table := table.AddRow
    [Value.str "Confidential:", prettifyNilEmptyValues (Value.bool issue.Confidential) "None"]
  let table := table.AddRow
    [Value.str "Discussion Locked:",
      prettifyNilEmptyValues (Value.bool issue.DiscussionLocked) "false"]
  table.AddRow
    [Value.str "Subscribed:", prettifyNilEmptyValues (Value.bool issue.Subscribed) "false"]

/-- The attribute table (lines 73-104): the two joined texts, the nine rows,
the `Closed By:` row when the state is `closed`, then the reference and the
web URL. -/
def attributeTable (env : Env) (issue : Issue) : Except Panic Table :=
  match assigneesText issue.Assignees with
  | Except.error p => Except.error p
  | Except.ok assignees =>
    let table := baseTable issue assignees
    let closing : Except Panic Table :=
      if issue.State = "closed" then
        let now := env.now 1
        match issue.ClosedAt with
        | none => Except.error (Panic.nilDeref "issue.ClosedAt")
        | some closedAt =>
          let ago := env.sub now closedAt
          match issue.ClosedBy with
          | none => Except.error (Panic.nilDeref "issue.ClosedBy")
          | some closedBy =>
            Except.ok (table.AddRow
              [Value.str "Closed By:",
                Value.str (closedBy.Username ++ " (" ++ closedBy.Name ++ ") "
                  ++ env.prettyTimeAgo ago)])
      else Except.ok table
    match closing with
    | Except.error p => Except.error p
    | Except.ok table =>
      match issue.References with
      | none => Except.error (Panic.nilDeref "issue.References")
      | some references =>
        let table := table.AddRow [Value.str "Reference:", Value.str references.Full]
        Except.ok (table.AddRow [Value.str "Web URL:", Value.str issue.WebURL])

/-- The summary (lines 53-106): header, byline, description, engagement line,
attribute table and an empty line. -/
def renderSummary (env : Env) (issue : Issue) : Fragment :=
  let issueState :=
    if issue.State = "opened" then env.green issue.State else env.red issue.State
  let now := env.now 0
  match issue.CreatedAt with
  | none => ⟨[], some (Panic.nilDeref "issue.CreatedAt")⟩
  | some createdAt =>
    let ago := env.sub now createdAt
    let out := [Effect.colorPrintf "\n%s <gray>#%d</>\n"
      [Value.str issue.Title, Value.int issue.IID]]
    match issue.Author with
    | none => ⟨out, some (Panic.nilDeref "issue.Author")⟩
    | some author =>
      let out := out ++ [Effect.colorPrintf "(%s)<gray> • opened by %s (%s) %s</>\n"
        [Value.str issueState, Value.str author.Username, Value.str author.Name,
          Value.str (env.prettyTimeAgo ago)]]
      let out :=
        if issue.Description ≠ "" then
          out ++ [Effect.println (env.renderMarkdown issue.Description)]
        else out
      let out := out ++
        [Effect.colorPrintf "\n<gray>%d upvotes • %d downvotes • %d comments</>\n\n"
          [Value.int issue.Upvotes, Value.int issue.Downvotes, Value.int issue.UserNotesCount]]
      match attributeTable env issue with
      | Except.error p => ⟨out, some p⟩
      | Except.ok table => ⟨out ++ [Effect.printlnTable table, Effect.printlnBlank], none⟩

/-- The options built at lines 109-115 from the page and per-page flags. -/
def notesOptions (flags : Flags) : ListIssueNotesOptions :=
  let l := ListIssueNotesOptions.zero
  let l := if flags.page ≠ 0 then { l with Page := flags.page } else l
  if flags.perPage ≠ 0 then { l with PerPage := flags.perPage } else l

/-- The loop over the fetched notes (lines 130-142), run on a table. -/
def addNoteRows (env : Env) : Table → List Note → Except Panic Table
  | table, [] => Except.ok table
  | table, note :: rest =>
    if note.System then addNoteRows env table rest
    else
      match note.Author with
      | none => Except.error (Panic.nilDeref "note.Author")
      | some author =>
        match note.CreatedAt with
        | none => Except.error (Panic.nilDeref "note.CreatedAt")
        | some createdAt =>
          let table := table.AddRow
            [Value.str (author.Username ++ ":"),
              Value.str (note.Body ++ "\n" ++ env.gray (env.timeToPrettyTimeAgo createdAt))]
          let table := table.AddRow [Value.str ""]
          addNoteRows env table rest

/-- The raw text handed to `heredoc.Doc` at lines 124-128. -/
def commentsHeaderRaw : String :=
  " \n\t\t\t--------------------------------------------\n\t\t\tComments / Notes\n\t\t\t--------------------------------------------\n\t\t\t"

/-- The message of line 145. -/
def noCommentsMessage : String := "There are no comments on this issue"

/-- The comment listing (lines 108-147), entered when the comments flag is
set. -/
def renderComments (env : Env) (flags : Flags) (repo : String) (pid : Int) : Run :=
  let l := notesOptions flags
  let fetched := [Effect.listIssueNotes repo pid l]
  match env.listIssueNotes repo pid l with
  | Except.error err => ⟨fetched, Outcome.returned (some err)⟩
  | Except.ok notes =>
    let table := { Table.new with MaxColWidth := 100, Wrap := true }
    let out := fetched ++ [Effect.println (env.heredocDoc commentsHeaderRaw)]
    if notes.length > 0 then
      match addNoteRows env table notes with
      | Except.error p => ⟨out, Outcome.panicked p⟩
      | Except.ok table => ⟨out ++ [Effect.printlnTable table], Outcome.returned none⟩
    else ⟨out ++ [Effect.println noCommentsMessage], Outcome.returned none⟩

/-- The repository of the run (lines 33-37): the repo flag when it is not
empty, the repository of the working directory otherwise. -/
def resolveRepo (env : Env) (flags : Flags) : String :=
  if flags.repo ≠ "" then flags.repo else env.ambientRepo

/-- The closure `RunE` of `issueViewCmd` (lines 26-149). -/
def runE (env : Env) (flags : Flags) (args : List String) : Run :=
  if args.length = 0 ∨ args.length > 1 then
    ⟨[Effect.cmdErr args], Outcome.returned none⟩
  else
    let pid := env.stringToInt (args.headD "")
    let repo := resolveRepo env flags
    let fetched := [Effect.getIssue repo pid]
    match env.getIssue repo pid with
    | Except.error err => ⟨fetched, Outcome.returned (some err)⟩
    | Except.ok issue =>
      if flags.web then
        let out := fetched ++ [Effect.browserCommand issue.WebURL]
        match env.browserCommand issue.WebURL with
        | Except.error err => ⟨out, Outcome.returned (some err)⟩
        | Except.ok a =>
          let out := out ++ [Effect.browserRun a]
          match env.browserRun a with
          | some err => ⟨out, Outcome.returned (some err)⟩
          | none => ⟨out, Outcome.returned none⟩
      else
        let summary := renderSummary env issue
        match summary.panic with
        | some p => ⟨fetched ++ summary.trace, Outcome.panicked p⟩
        | none =>
          if flags.comments then
            let comments := renderComments env flags repo pid
            ⟨fetched ++ summary.trace ++ comments.trace, comments.outcome⟩
          else ⟨fetched ++ summary.trace, Outcome.returned none⟩

/-! ## Vocabulary of the statements -/

/-- Something written to the terminal. -/
def Effect.isOutput : Effect → Bool
  | Effect.colorPrintf _ _ => true
  | Effect.println _ => true
  | Effect.printlnTable _ => true
  | Effect.printlnBlank => true
  | _ => false

/-- A call of `browser.Command`, the browser launcher. -/
def Effect.isBrowserCommand : Effect → Bool
  | Effect.browserCommand _ => true
  | _ => false

/-- The start of the process that `browser.Command` built. -/
def Effect.isBrowserRun : Effect → Bool
  | Effect.browserRun _ => true
  | _ => false

/-- A notes fetch. -/
def Effect.isNotesFetch : Effect → Bool
  | Effect.listIssueNotes _ _ _ => true
  | _ => false

/-- The invariant of an issue that the specification states: author and
creation timestamp are present, and so are the closing timestamp and the closer
when the state is `closed`. -/
def Issue.statedInvariant (issue : Issue) : Prop :=
  issue.Author.isSome = true ∧ issue.CreatedAt.isSome = true ∧
    (issue.State = "closed" → issue.ClosedAt.isSome = true ∧ issue.ClosedBy.isSome = true)

instance Issue.decidableStatedInvariant (issue : Issue) : Decidable issue.statedInvariant := by
  unfold Issue.statedInvariant
  infer_instance

/-- The data-model invariant of an issue: the stated invariant, and the
reference and every assignee entry are present. -/
def Issue.wellFormed (issue : Issue) : Prop :=
  issue.statedInvariant ∧ issue.References.isSome = true ∧
    ∀ a ∈ issue.Assignees, a.isSome = true

instance Issue.decidableWellFormed (issue : Issue) : Decidable issue.wellFormed := by
  unfold Issue.wellFormed
  infer_instance

/-- The data-model invariant of a note list: every note that is not
system-generated has an author and a creation timestamp. -/
def notesWellFormed (notes : List Note) : Prop :=
  ∀ n ∈ notes, n.System = false → n.Author.isSome = true ∧ n.CreatedAt.isSome = true

instance decidableNotesWellFormed (notes : List Note) : Decidable (notesWellFormed notes) := by
  unfold notesWellFormed
  infer_instance

/-- The rows expected of one note in the comment table: none for a
system-generated note, a content row and a spacer row otherwise. -/
def expectedNoteRows (env : Env) (n : Note) : List Row :=
  match n.System, n.Author, n.CreatedAt with
  | false, some author, some createdAt =>
    [[Value.str (author.Username ++ ":"),
      Value.str (n.Body ++ "\n" ++ env.gray (env.timeToPrettyTimeAgo createdAt))],
     [Value.str ""]]
  | _, _, _ => []

/-- The text `username(display name)` of an assignee. -/
def assigneeEntry (a : User) : String :=
  a.Username ++ "(" ++ a.Name ++ ")"

/-- A character of the cutset `", "` of the two trims. -/
def isCutsetChar (c : Char) : Bool :=
  decide (c ∈ ", ".data)

/-! ## Sample data -/

/-- The issue of the `Fix crash` scenario: no labels, no assignees, no
milestone, no due date, no weight. -/
def fixCrash : Issue :=
  { IID := 42, ProjectID := 7, Title := "Fix crash", Description := "", State := "opened",
    Author := some ⟨"alice", "Alice A"⟩, CreatedAt := some 0, ClosedAt := none, ClosedBy := none,
    Upvotes := 0, Downvotes := 0, UserNotesCount := 0, Labels := [], Assignees := [],
    Milestone := none, DueDate := none, Weight := 0,
    Confidential := false, DiscussionLocked := false, Subscribed := false,
    References := some ⟨"#42"⟩, WebURL := "https://x/42" }

/-- The same issue, closed by bob, with two labels and one assignee. -/
def closedCrash : Issue :=
  { fixCrash with State := "closed", ClosedAt := some 3600, ClosedBy := some ⟨"bob", "Bob B"⟩,
                  Labels := ["bug", "ui"], Assignees := [some ⟨"carol", "Carol C"⟩] }

/-- A system-generated note without author or timestamp. -/
def systemNote : Note := ⟨none, "changed milestone", none, true⟩

/-- A comment written by carol. -/
def carolNote : Note := ⟨some ⟨"carol", "Carol C"⟩, "Looks good", some 3600, false⟩

/-- A sample world: the two fetches answer as given, the browser starts. -/
def sampleEnv (issue : Except Error Issue) (notes : Except Error (List Note)) : Env :=
  { stringToInt := fun _ => 42
    ambientRepo := "owner/repo"
    getIssue := fun _ _ => issue
    browserCommand := fun url => Except.ok ("open " ++ url)
    browserRun := fun _ => none
    listIssueNotes := fun _ _ _ => notes
    now := fun _ => 7200
    sub := fun a b => a - b
    prettyTimeAgo := fun _ => "2 hours ago"
    timeToPrettyTimeAgo := fun _ => "1 hour ago"
    renderMarkdown := fun s => s
    green := fun s => s
    red := fun s => s
    gray := fun s => s
    heredocDoc := fun s => s }

/-- The flags of `--comments`. -/
def commentsFlags : Flags := { initFlags with comments := true }

/-- The flags of `--web --comments`. -/
def webFlags : Flags := { initFlags with web := true, comments := true }

/-! ## Shape of a run -/

theorem runE_single (env : Env) (flags : Flags) (a : String) :
    runE env flags [a] =
      match env.getIssue (resolveRepo env flags) (env.stringToInt a) with
      | Except.error err =>
        ⟨[Effect.getIssue (resolveRepo env flags) (env.stringToInt a)],
          Outcome.returned (some err)⟩
      | Except.ok issue =>
        if flags.web then
          match env.browserCommand issue.WebURL with
          | Except.error err =>
            ⟨[Effect.getIssue (resolveRepo env flags) (env.stringToInt a),
              Effect.browserCommand issue.WebURL], Outcome.returned (some err)⟩
          | Except.ok c =>
            ⟨[Effect.getIssue (resolveRepo env flags) (env.stringToInt a),
              Effect.browserCommand issue.WebURL, Effect.browserRun c],
              Outcome.returned (env.browserRun c)⟩
        else
          match (renderSummary env issue).panic with
          | some p =>
            ⟨Effect.getIssue (resolveRepo env flags) (env.stringToInt a)
              :: (renderSummary env issue).trace, Outcome.panicked p⟩
          | none =>
            if flags.comments then
              ⟨Effect.getIssue (resolveRepo env flags) (env.stringToInt a)
                :: ((renderSummary env issue).trace ++
                  (renderComments env flags (resolveRepo env flags) (env.stringToInt a)).trace),
                (renderComments env flags (resolveRepo env flags) (env.stringToInt a)).outcome⟩
            else
              ⟨Effect.getIssue (resolveRepo env flags) (env.stringToInt a)
                :: (renderSummary env issue).trace, Outcome.returned none⟩ := by
  unfold runE
  simp only [List.length_singleton, List.headD_cons]
  rw [if_neg (by decide)]
  cases hI : env.getIssue (resolveRepo env flags) (env.stringToInt a) with
  | error err => rfl
  | ok issue =>
    simp only
    by_cases hw : flags.web = true
    · simp only [hw, if_true]
      cases hc : env.browserCommand issue.WebURL with
      | error err => simp
      | ok c =>
        simp only
        cases hr : env.browserRun c <;> simp
    · simp only [hw, if_false]
      cases hp : (renderSummary env issue).panic with
      | some p => simp
      | none =>
        simp only
        by_cases hcm : flags.comments = true <;> simp [hcm]

theorem baseTable_shape (issue : Issue) (assignees : String) :
    (baseTable issue assignees).MaxColWidth = 70 ∧ (baseTable issue assignees).Wrap = true ∧
    (baseTable issue assignees).Rows =
      [[Value.str "Project ID:", Value.int issue.ProjectID],
       [Value.str "Labels:", prettifyNilEmptyValues (Value.str (labelsText issue.Labels)) "None"],
       [Value.str "Milestone:",
         prettifyNilEmptyValues (pointerValue "*gitlab.Milestone" issue.Milestone) "None"],
       [Value.str "Assignees:", prettifyNilEmptyValues (Value.str assignees) "None"],
       [Value.str "Due date:",
         prettifyNilEmptyValues (pointerValue "*gitlab.ISOTime" issue.DueDate) "None"],
       [Value.str "Weight:", prettifyNilEmptyValues (Value.int issue.Weight) "None"],
       [Value.str "Confidential:", prettifyNilEmptyValues (Value.bool issue.Confidential) "None"],
       [Value.str "Discussion Locked:",
         prettifyNilEmptyValues (Value.bool issue.DiscussionLocked) "false"],
       [Value.str "Subscribed:", prettifyNilEmptyValues (Value.bool issue.Subscribed) "false"]] :=
  ⟨rfl, rfl, rfl⟩

theorem attributeTable_not_closed (env : Env) (issue : Issue) (assignees : String)
    (references : IssueReferences) (h : issue.State ≠ "closed")
    (hs : assigneesText issue.Assignees = Except.ok assignees)
    (hr : issue.References = some references) :
    attributeTable env issue = Except.ok
      ⟨70, true, (baseTable issue assignees).Rows ++
        [[Value.str "Reference:", Value.str references.Full],
         [Value.str "Web URL:", Value.str issue.WebURL]]⟩ := by
  unfold attributeTable
  simp only [hs, if_neg h, hr, Table.AddRow, List.append_assoc, List.singleton_append]
  rfl

theorem attributeTable_closed (env : Env) (issue : Issue) (assignees : String)
    (references : IssueReferences) (closedAt : Time) (closedBy : User)
    (h : issue.State = "closed") (hs : assigneesText issue.Assignees = Except.ok assignees)
    (hr : issue.References = some references) (hAt : issue.ClosedAt = some closedAt)
    (hBy : issue.ClosedBy = some closedBy) :
    attributeTable env issue = Except.ok
      ⟨70, true, (baseTable issue assignees).Rows ++
        [[Value.str "Closed By:",
          Value.str (closedBy.Username ++ " (" ++ closedBy.Name ++ ") "
            ++ env.prettyTimeAgo (env.sub (env.now 1) closedAt))],
         [Value.str "Reference:", Value.str references.Full],
         [Value.str "Web URL:", Value.str issue.WebURL]]⟩ := by
  unfold attributeTable
  simp only [hs, if_pos h, hr, hAt, hBy, Table.AddRow, List.append_assoc,
    List.singleton_append]
  rfl

theorem attributeTable_assignee_panic (env : Env) (issue : Issue) (p : Panic)
    (hs : assigneesText issue.Assignees = Except.error p) :
    attributeTable env issue = Except.error p := by
  unfold attributeTable
  simp only [hs]

theorem attributeTable_closed_noTimestamp (env : Env) (issue : Issue) (assignees : String)
    (h : issue.State = "closed") (hs : assigneesText issue.Assignees = Except.ok assignees)
    (hAt : issue.ClosedAt = none) :
    attributeTable env issue = Except.error (Panic.nilDeref "issue.ClosedAt") := by
  unfold attributeTable
  simp only [hs, if_pos h, hAt]

theorem attributeTable_closed_noCloser (env : Env) (issue : Issue) (assignees : String)
    (closedAt : Time)
    (h : issue.State = "closed") (hs : assigneesText issue.Assignees = Except.ok assignees)
    (hAt : issue.ClosedAt = some closedAt) (hBy : issue.ClosedBy = none) :
    attributeTable env issue = Except.error (Panic.nilDeref "issue.ClosedBy") := by
  unfold attributeTable
  simp only [hs, if_pos h, hAt, hBy]

theorem attributeTable_noReference (env : Env) (issue : Issue)
    (hr : issue.References = none) :
    ∀ t, attributeTable env issue ≠ Except.ok t := by
  intro t ht
  unfold attributeTable at ht
  cases hs : assigneesText issue.Assignees with
  | error p => simp [hs] at ht
  | ok assignees =>
    by_cases h : issue.State = "closed"
    · cases hAt : issue.ClosedAt with
      | none => simp [hs, h, hAt] at ht
      | some closedAt =>
        cases hBy : issue.ClosedBy with
        | none => simp [hs, h, hAt, hBy] at ht
        | some closedBy => simp [hs, h, hAt, hBy, hr] at ht
    · simp [hs, h, hr] at ht

theorem assigneesLoop_present (users : List User) :
    ∀ acc : String, assigneesLoop acc (users.map some) =
      Except.ok (users.foldl
        (fun acc a => acc ++ (" " ++ a.Username ++ "(" ++ a.Name ++ "),")) acc) := by
  induction users with
  | nil => intro acc; rfl
  | cons a rest ih =>
    intro acc
    rw [List.map_cons, assigneesLoop, ih, List.foldl_cons]

theorem assigneesLoop_absent (assignees : List (Option User))
    (h : none ∈ assignees) :
    ∀ acc : String, assigneesLoop acc assignees = Except.error (Panic.nilDeref "a") := by
  induction assignees with
  | nil => simp at h
  | cons a rest ih =>
    intro acc
    cases a with
    | none => rfl
    | some u =>
      rw [assigneesLoop]
      exact ih (by simpa using h) _

theorem all_present (assignees : List (Option User))
    (h : ∀ a ∈ assignees, a.isSome = true) : ∃ users : List User, assignees = users.map some := by
  induction assignees with
  | nil => exact ⟨[], rfl⟩
  | cons a rest ih =>
    obtain ⟨users, hu⟩ := ih (fun b hb => h b (List.mem_cons_of_mem a hb))
    obtain ⟨u, rfl⟩ := Option.isSome_iff_exists.mp (h a (List.mem_cons_self a rest))
    exact ⟨u :: users, by rw [hu]; rfl⟩

theorem renderSummary_ok (env : Env) (issue : Issue) (author : User) (createdAt : Time)
    (t : Table)
    (hA : issue.Author = some author) (hC : issue.CreatedAt = some createdAt)
    (hT : attributeTable env issue = Except.ok t) :
    renderSummary env issue =
      ⟨[Effect.colorPrintf "\n%s <gray>#%d</>\n" [Value.str issue.Title, Value.int issue.IID],
        Effect.colorPrintf "(%s)<gray> • opened by %s (%s) %s</>\n"
          [Value.str (if issue.State = "opened" then env.green issue.State
              else env.red issue.State),
            Value.str author.Username, Value.str author.Name,
            Value.str (env.prettyTimeAgo (env.sub (env.now 0) createdAt))]]
        ++ (if issue.Description ≠ "" then
              [Effect.println (env.renderMarkdown issue.Description)] else [])
        ++ [Effect.colorPrintf "\n<gray>%d upvotes • %d downvotes • %d comments</>\n\n"
              [Value.int issue.Upvotes, Value.int issue.Downvotes,
                Value.int issue.UserNotesCount],
            Effect.printlnTable t, Effect.printlnBlank], none⟩ := by
  unfold renderSummary
  simp only [hA, hC, hT]
  by_cases hd : issue.Description = "" <;> simp [hd]

theorem renderSummary_table_panic (env : Env) (issue : Issue) (author : User)
    (createdAt : Time) (p : Panic)
    (hA : issue.Author = some author) (hC : issue.CreatedAt = some createdAt)
    (hT : attributeTable env issue = Except.error p) :
    (renderSummary env issue).panic = some p := by
  unfold renderSummary
  simp only [hA, hC, hT]

theorem renderSummary_trace_output (env : Env) (issue : Issue) :
    ∀ e ∈ (renderSummary env issue).trace, e.isOutput = true := by
  unfold renderSummary
  cases issue.CreatedAt with
  | none => simp
  | some createdAt =>
    cases issue.Author with
    | none => simp [Effect.isOutput]
    | some author =>
      by_cases hd : issue.Description = "" <;>
        cases attributeTable env issue <;> simp [hd, Effect.isOutput]

theorem renderComments_error (env : Env) (flags : Flags) (repo : String) (pid : Int)
    (err : Error) (h : env.listIssueNotes repo pid (notesOptions flags) = Except.error err) :
    renderComments env flags repo pid =
      ⟨[Effect.listIssueNotes repo pid (notesOptions flags)], Outcome.returned (some err)⟩ := by
  unfold renderComments
  simp only [h]

theorem renderComments_empty (env : Env) (flags : Flags) (repo : String) (pid : Int)
    (h : env.listIssueNotes repo pid (notesOptions flags) = Except.ok []) :
    renderComments env flags repo pid =
      ⟨[Effect.listIssueNotes repo pid (notesOptions flags),
        Effect.println (env.heredocDoc commentsHeaderRaw),
        Effect.println noCommentsMessage], Outcome.returned none⟩ := by
  unfold renderComments
  simp only [h]
  simp

theorem renderComments_nonempty (env : Env) (flags : Flags) (repo : String) (pid : Int)
    (notes : List Note) (t : Table)
    (h : env.listIssueNotes repo pid (notesOptions flags) = Except.ok notes)
    (hne : notes ≠ []) (hr : addNoteRows env ⟨100, true, []⟩ notes = Except.ok t) :
    renderComments env flags repo pid =
      ⟨[Effect.listIssueNotes repo pid (notesOptions flags),
        Effect.println (env.heredocDoc commentsHeaderRaw),
        Effect.printlnTable t], Outcome.returned none⟩ := by
  have hlen : notes.length > 0 := List.length_pos.mpr hne
  have hr2 : addNoteRows env { Table.new with MaxColWidth := 100, Wrap := true } notes
      = Except.ok t := hr
  unfold renderComments
  simp only [h, hlen, if_true, hr2]
  simp

theorem renderComments_panic (env : Env) (flags : Flags) (repo : String) (pid : Int)
    (notes : List Note) (p : Panic)
    (h : env.listIssueNotes repo pid (notesOptions flags) = Except.ok notes)
    (hne : notes ≠ []) (hr : addNoteRows env ⟨100, true, []⟩ notes = Except.error p) :
    renderComments env flags repo pid =
      ⟨[Effect.listIssueNotes repo pid (notesOptions flags),
        Effect.println (env.heredocDoc commentsHeaderRaw)], Outcome.panicked p⟩ := by
  have hlen : notes.length > 0 := List.length_pos.mpr hne
  have hr2 : addNoteRows env { Table.new with MaxColWidth := 100, Wrap := true } notes
      = Except.error p := hr
  unfold renderComments
  simp only [h, hlen, if_true, hr2]
  simp

theorem renderComments_trace (env : Env) (flags : Flags) (repo : String) (pid : Int) :
    ∃ rest, (renderComments env flags repo pid).trace =
        Effect.listIssueNotes repo pid (notesOptions flags) :: rest ∧
      ∀ e ∈ rest, e.isOutput = true := by
  cases h : env.listIssueNotes repo pid (notesOptions flags) with
  | error err =>
    rw [renderComments_error env flags repo pid err h]
    exact ⟨[], rfl, by simp⟩
  | ok notes =>
    by_cases hn : notes = []
    · subst hn
      rw [renderComments_empty env flags repo pid h]
      exact ⟨_, rfl, by simp [Effect.isOutput]⟩
    · cases hr : addNoteRows env ⟨100, true, []⟩ notes with
      | error p =>
        rw [renderComments_panic env flags repo pid notes p h hn hr]
        exact ⟨_, rfl, by simp [Effect.isOutput]⟩
      | ok t =>
        rw [renderComments_nonempty env flags repo pid notes t h hn hr]
        exact ⟨_, rfl, by simp [Effect.isOutput]⟩

theorem wellFormed_render (env : Env) (issue : Issue) (h : issue.wellFormed) :
    ∃ author createdAt t, issue.Author = some author ∧ issue.CreatedAt = some createdAt ∧
      attributeTable env issue = Except.ok t := by
  obtain ⟨⟨hA, hC, hcl⟩, hR, hAs⟩ := h
  obtain ⟨author, hA⟩ := Option.isSome_iff_exists.mp hA
  obtain ⟨createdAt, hC⟩ := Option.isSome_iff_exists.mp hC
  obtain ⟨references, hR⟩ := Option.isSome_iff_exists.mp hR
  obtain ⟨users, hU⟩ := all_present issue.Assignees hAs
  have hs : assigneesText issue.Assignees = Except.ok (stringsTrim (users.foldl
      (fun acc a => acc ++ (" " ++ a.Username ++ "(" ++ a.Name ++ "),")) "") ", ") := by
    rw [hU, assigneesText, assigneesLoop_present]
  by_cases hst : issue.State = "closed"
  · obtain ⟨hAt, hBy⟩ := hcl hst
    obtain ⟨closedAt, hAt⟩ := Option.isSome_iff_exists.mp hAt
    obtain ⟨closedBy, hBy⟩ := Option.isSome_iff_exists.mp hBy
    exact ⟨author, createdAt, _, hA, hC,
      attributeTable_closed env issue _ references closedAt closedBy hst hs hR hAt hBy⟩
  · exact ⟨author, createdAt, _, hA, hC,
      attributeTable_not_closed env issue _ references hst hs hR⟩

theorem runE_rendered (env : Env) (flags : Flags) (a : String) (issue : Issue)
    (hfetch : env.getIssue (resolveRepo env flags) (env.stringToInt a) = Except.ok issue)
    (hweb : flags.web = false) (hp : (renderSummary env issue).panic = none) :
    runE env flags [a] =
      if flags.comments then
        ⟨Effect.getIssue (resolveRepo env flags) (env.stringToInt a)
          :: ((renderSummary env issue).trace ++
            (renderComments env flags (resolveRepo env flags) (env.stringToInt a)).trace),
          (renderComments env flags (resolveRepo env flags) (env.stringToInt a)).outcome⟩
      else
        ⟨Effect.getIssue (resolveRepo env flags) (env.stringToInt a)
          :: (renderSummary env issue).trace, Outcome.returned none⟩ := by
  rw [runE_single, hfetch]
  simp only [hweb, hp]
  simp

theorem runE_trace_cases (env : Env) (flags : Flags) (args : List String) :
    (∀ e ∈ (runE env flags args).trace, e.isNotesFetch = false) ∨
    ∃ a pre rest, args = [a] ∧ flags.comments = true ∧ flags.web = false ∧
      (runE env flags args).trace =
        Effect.getIssue (resolveRepo env flags) (env.stringToInt a) :: (pre ++
          Effect.listIssueNotes (resolveRepo env flags) (env.stringToInt a) (notesOptions flags)
            :: rest) ∧
      (∀ e ∈ pre, e.isOutput = true) ∧ (∀ e ∈ rest, e.isOutput = true) := by
  match args with
  | [] => left; simp [runE, Effect.isNotesFetch]
  | _ :: _ :: _ => left; simp [runE, Effect.isNotesFetch]
  | [a] =>
    rw [runE_single]
    have hout : ∀ e : Effect, e.isOutput = true → e.isNotesFetch = false := by
      intro e he; cases e <;> simp_all [Effect.isOutput, Effect.isNotesFetch]
    cases hI : env.getIssue (resolveRepo env flags) (env.stringToInt a) with
    | error err => left; simp [Effect.isNotesFetch]
    | ok issue =>
      by_cases hw : flags.web = true
      · left
        simp only [hw, if_true]
        cases env.browserCommand issue.WebURL <;> simp [Effect.isNotesFetch]
      · simp only [hw]
        cases hp : (renderSummary env issue).panic with
        | some p =>
          left
          intro e he
          simp only [Bool.false_eq_true, if_false, List.mem_cons] at he
          rcases he with rfl | he
          · rfl
          · exact hout e (renderSummary_trace_output env issue e he)
        | none =>
          by_cases hc : flags.comments = true
          · right
            obtain ⟨rest, hrest, hall⟩ :=
              renderComments_trace env flags (resolveRepo env flags) (env.stringToInt a)
            refine ⟨a, (renderSummary env issue).trace, rest, rfl, hc, by simp [hw], ?_,
              renderSummary_trace_output env issue, hall⟩
            simp [hc, hrest]
          · left
            intro e he
            simp only [Bool.false_eq_true, if_false, hc, List.mem_cons] at he
            rcases he with rfl | he
            · rfl
            · exact hout e (renderSummary_trace_output env issue e he)

theorem expectedNoteRows_system (env : Env) (n : Note) (h : n.System = true) :
    expectedNoteRows env n = [] := by
  unfold expectedNoteRows
  simp [h]

theorem expectedNoteRows_comment (env : Env) (n : Note) (author : User) (createdAt : Time)
    (h : n.System = false) (hA : n.Author = some author) (hC : n.CreatedAt = some createdAt) :
    expectedNoteRows env n =
      [[Value.str (author.Username ++ ":"),
        Value.str (n.Body ++ "\n" ++ env.gray (env.timeToPrettyTimeAgo createdAt))],
       [Value.str ""]] := by
  unfold expectedNoteRows
  simp [h, hA, hC]

theorem addNoteRows_wellFormed (env : Env) (notes : List Note) (h : notesWellFormed notes) :
    ∀ table : Table, addNoteRows env table notes =
      Except.ok ⟨table.MaxColWidth, table.Wrap,
        table.Rows ++ notes.flatMap (expectedNoteRows env)⟩ := by
  induction notes with
  | nil => intro table; simp [addNoteRows]
  | cons n rest ih =>
    intro table
    have hrest : notesWellFormed rest := fun m hm => h m (List.mem_cons_of_mem n hm)
    by_cases hs : n.System = true
    · rw [addNoteRows, if_pos hs, ih hrest table]
      simp [List.flatMap_cons, expectedNoteRows_system env n hs]
    · have hs2 : n.System = false := by simpa using hs
      obtain ⟨hA, hC⟩ := h n (List.mem_cons_self n rest) hs2
      obtain ⟨author, hA⟩ := Option.isSome_iff_exists.mp hA
      obtain ⟨createdAt, hC⟩ := Option.isSome_iff_exists.mp hC
      rw [addNoteRows, if_neg hs]
      simp only [hA, hC]
      rw [ih hrest]
      simp [List.flatMap_cons, expectedNoteRows_comment env n author createdAt hs2 hA hC,
        Table.AddRow]

theorem addNoteRows_ok_wellFormed (env : Env) (notes : List Note) :
    ∀ table t : Table, addNoteRows env table notes = Except.ok t → notesWellFormed notes := by
  induction notes with
  | nil => intro _ _ _ n hn; simp at hn
  | cons n rest ih =>
    intro table t h m hm hsys
    by_cases hs : n.System = true
    · rw [addNoteRows, if_pos hs] at h
      rcases List.mem_cons.mp hm with rfl | hm
      · rw [hs] at hsys
        exact absurd hsys (by simp)
      · exact ih table t h m hm hsys
    · rw [addNoteRows, if_neg hs] at h
      cases hA : n.Author with
      | none => simp [hA] at h
      | some author =>
        cases hC : n.CreatedAt with
        | none => simp [hA, hC] at h
        | some createdAt =>
          simp only [hA, hC] at h
          rcases List.mem_cons.mp hm with rfl | hm
          · simp [hA, hC]
          · exact ih _ t h m hm hsys

theorem flatMap_filter_comments (env : Env) (notes : List Note) :
    (notes.filter (fun n => !n.System)).flatMap (expectedNoteRows env) =
      notes.flatMap (expectedNoteRows env) := by
  induction notes with
  | nil => rfl
  | cons n rest ih =>
    by_cases hs : n.System = true
    · simp [List.filter_cons, hs, List.flatMap_cons, expectedNoteRows_system env n hs, ih]
    · simp [List.filter_cons, hs, List.flatMap_cons, ih]

theorem flatMap_allSystem (env : Env) (notes : List Note)
    (h : ∀ n ∈ notes, n.System = true) : notes.flatMap (expectedNoteRows env) = [] := by
  induction notes with
  | nil => rfl
  | cons n rest ih =>
    rw [List.flatMap_cons, expectedNoteRows_system env n (h n (List.mem_cons_self n rest)),
      ih (fun m hm => h m (List.mem_cons_of_mem n hm))]
    rfl

theorem wellFormed_summary (env : Env) (issue : Issue) (h : issue.wellFormed) :
    (renderSummary env issue).panic = none := by
  obtain ⟨author, createdAt, t, hA, hC, hT⟩ := wellFormed_render env issue h
  rw [renderSummary_ok env issue author createdAt t hA hC hT]

theorem attributeTable_ok_cases (env : Env) (issue : Issue) (t : Table)
    (h : attributeTable env issue = Except.ok t) :
    ∃ assignees references, assigneesText issue.Assignees = Except.ok assignees ∧
      issue.References = some references ∧
      ((issue.State ≠ "closed" ∧
        t = ⟨70, true, (baseTable issue assignees).Rows ++
          [[Value.str "Reference:", Value.str references.Full],
           [Value.str "Web URL:", Value.str issue.WebURL]]⟩) ∨
      (issue.State = "closed" ∧ ∃ closedAt closedBy,
        issue.ClosedAt = some closedAt ∧ issue.ClosedBy = some closedBy ∧
        t = ⟨70, true, (baseTable issue assignees).Rows ++
          [[Value.str "Closed By:",
            Value.str (closedBy.Username ++ " (" ++ closedBy.Name ++ ") "
              ++ env.prettyTimeAgo (env.sub (env.now 1) closedAt))],
           [Value.str "Reference:", Value.str references.Full],
           [Value.str "Web URL:", Value.str issue.WebURL]]⟩)) := by
  cases hs : assigneesText issue.Assignees with
  | error p =>
    rw [attributeTable_assignee_panic env issue p hs] at h
    exact absurd h (by simp)
  | ok assignees =>
    cases hr : issue.References with
    | none => exact absurd h (attributeTable_noReference env issue hr t)
    | some references =>
      refine ⟨assignees, references, rfl, rfl, ?_⟩
      by_cases hst : issue.State = "closed"
      · right
        refine ⟨hst, ?_⟩
        cases hAt : issue.ClosedAt with
        | none =>
          rw [attributeTable_closed_noTimestamp env issue assignees hst hs hAt] at h
          exact absurd h (by simp)
        | some closedAt =>
          cases hBy : issue.ClosedBy with
          | none =>
            rw [attributeTable_closed_noCloser env issue assignees closedAt hst hs hAt hBy] at h
            exact absurd h (by simp)
          | some closedBy =>
            rw [attributeTable_closed env issue assignees references closedAt closedBy hst hs
              hr hAt hBy] at h
            exact ⟨closedAt, closedBy, rfl, rfl, (Except.ok.inj h).symm⟩
      · left
        rw [attributeTable_not_closed env issue assignees references hst hs hr] at h
        exact ⟨hst, (Except.ok.inj h).symm⟩

theorem baseTable_no_closedBy (issue : Issue) (assignees : String) :
    ∀ row ∈ (baseTable issue assignees).Rows, row.head? ≠ some (Value.str "Closed By:") := by
  rw [(baseTable_shape issue assignees).2.2]
  intro row hrow
  simp only [List.mem_cons, List.mem_singleton, List.not_mem_nil, or_false] at hrow
  rcases hrow with h | h | h | h | h | h | h | h | h <;> subst h <;>
    simp only [List.head?_cons, ne_eq, Option.some.injEq, Value.str.injEq] <;> decide

theorem renderSummary_complete (env : Env) (issue : Issue)
    (h : (renderSummary env issue).panic = none) :
    ∃ author createdAt t, issue.Author = some author ∧ issue.CreatedAt = some createdAt ∧
      attributeTable env issue = Except.ok t := by
  cases hC : issue.CreatedAt with
  | none =>
    unfold renderSummary at h
    simp [hC] at h
  | some createdAt =>
    cases hA : issue.Author with
    | none =>
      unfold renderSummary at h
      simp [hC, hA] at h
    | some author =>
      cases hT : attributeTable env issue with
      | error p =>
        rw [renderSummary_table_panic env issue author createdAt p hA hC hT] at h
        exact absurd h (by simp)
      | ok t => exact ⟨author, createdAt, t, rfl, rfl, rfl⟩

theorem notes_fetch_made (env : Env) (flags : Flags) (a : String) (issue : Issue)
    (repo : String) (pid : Int) (opt : ListIssueNotesOptions)
    (hfetch : env.getIssue (resolveRepo env flags) (env.stringToInt a) = Except.ok issue)
    (hweb : flags.web = false)
    (h : Effect.listIssueNotes repo pid opt ∈ (runE env flags [a]).trace) :
    (renderSummary env issue).panic = none ∧ flags.comments = true := by
  have hno : Effect.listIssueNotes repo pid opt ∉
      Effect.getIssue (resolveRepo env flags) (env.stringToInt a)
        :: (renderSummary env issue).trace := by
    intro hmem
    rcases List.mem_cons.mp hmem with h1 | h1
    · exact absurd h1 (by simp)
    · exact absurd (renderSummary_trace_output env issue _ h1) (by simp [Effect.isOutput])
  rw [runE_single, hfetch] at h
  simp only [hweb, Bool.false_eq_true, if_false] at h
  cases hp : (renderSummary env issue).panic with
  | some p =>
    simp only [hp] at h
    exact absurd h hno
  | none =>
    simp only [hp] at h
    by_cases hc : flags.comments = true
    · exact ⟨rfl, hc⟩
    · simp only [hc, Bool.false_eq_true, if_false] at h
      exact absurd h hno

/-! ## The two joined texts -/

theorem foldl_labels_data (ls : List String) :
    ∀ acc : String, (ls.foldl (fun acc l => acc ++ (" " ++ l ++ ",")) acc).data =
      acc.data ++ (ls.map (fun l => ' ' :: (l.data ++ [',']))).flatten := by
  induction ls with
  | nil => intro acc; simp
  | cons l rest ih =>
    intro acc
    rw [List.foldl_cons, ih]
    simp only [String.data_append, List.map_cons, List.flatten_cons, List.append_assoc]
    simp

theorem intercalate_go_data (ls : List String) :
    ∀ acc : String, (String.intercalate.go acc ", " ls).data =
      acc.data ++ (ls.map (fun l => ',' :: ' ' :: l.data)).flatten := by
  induction ls with
  | nil => intro acc; simp [String.intercalate.go]
  | cons l rest ih =>
    intro acc
    rw [String.intercalate.go, ih]
    simp only [String.data_append, List.map_cons, List.flatten_cons, List.append_assoc]
    simp

theorem intercalate_cons_data (a : String) (ls : List String) :
    (", ".intercalate (a :: ls)).data =
      a.data ++ (ls.map (fun l => ',' :: ' ' :: l.data)).flatten := by
  rw [String.intercalate, intercalate_go_data]

theorem built_eq_intercalate (ls : List String) : ∀ a : String,
    ((a :: ls).map (fun l => ' ' :: (l.data ++ [',']))).flatten =
      ' ' :: ((", ".intercalate (a :: ls)).data ++ [',']) := by
  induction ls with
  | nil => intro a; simp [intercalate_cons_data]
  | cons b rest ih =>
    intro a
    rw [List.map_cons, List.flatten_cons, ih b, intercalate_cons_data, intercalate_cons_data]
    simp

theorem trim_data_frame (l : List Char) :
    ((' ' :: (l ++ [','])).dropWhile (fun c => decide (c ∈ ", ".data))).rdropWhile
        (fun c => decide (c ∈ ", ".data)) =
      (l.dropWhile (fun c => decide (c ∈ ", ".data))).rdropWhile
        (fun c => decide (c ∈ ", ".data)) := by
  have hs : decide (' ' ∈ ", ".data) = true := by decide
  have hc : decide (',' ∈ ", ".data) = true := by decide
  rw [List.dropWhile_cons, if_pos hs, List.dropWhile_append]
  by_cases he : (List.dropWhile (fun c => decide (c ∈ ", ".data)) l).isEmpty = true
  · rw [if_pos he, List.dropWhile_cons, if_pos hc, List.isEmpty_iff.mp he]
    rfl
  · rw [if_neg he]
    exact List.rdropWhile_concat_pos (fun c => decide (c ∈ ", ".data)) _ ',' hc

theorem labelsText_eq_trim (labels : List String) :
    labelsText labels = stringsTrim (", ".intercalate labels) ", " := by
  cases labels with
  | nil => decide
  | cons a rest =>
    apply String.ext
    unfold labelsText stringsTrim
    simp only [foldl_labels_data, built_eq_intercalate]
    exact trim_data_frame _

theorem trim_data_self (l : List Char) (c d : Char)
    (hc : l.head? = some c) (hcc : isCutsetChar c = false)
    (hd : l.getLast? = some d) (hdc : isCutsetChar d = false) :
    (l.dropWhile (fun c => decide (c ∈ ", ".data))).rdropWhile
        (fun c => decide (c ∈ ", ".data)) = l := by
  obtain ⟨tl, rfl⟩ := List.head?_eq_some_iff.mp hc
  have h1 : decide (c ∈ ", ".data) ≠ true := by
    intro h
    rw [isCutsetChar, h] at hcc
    exact absurd hcc (by simp)
  rw [List.dropWhile_cons, if_neg h1, List.rdropWhile_eq_self_iff]
  intro hl
  rw [(List.getLast_eq_iff_getLast_eq_some hl).mpr hd]
  intro h
  rw [isCutsetChar, h] at hdc
  exact absurd hdc (by simp)

theorem intercalate_head (labels : List String) (first : String) (c : Char)
    (h : labels.head? = some first) (hc : first.data.head? = some c) :
    (", ".intercalate labels).data.head? = some c := by
  obtain ⟨tl, rfl⟩ := List.head?_eq_some_iff.mp h
  rw [intercalate_cons_data, List.head?_append, hc]
  rfl

theorem intercalate_last (labels : List String) (last : String) (d : Char)
    (h : labels.getLast? = some last) (hd : last.data.getLast? = some d) :
    (", ".intercalate labels).data.getLast? = some d := by
  obtain ⟨init, rfl⟩ := List.getLast?_eq_some_iff.mp h
  cases init with
  | nil =>
    rw [List.nil_append, intercalate_cons_data]
    simpa using hd
  | cons a rest =>
    rw [List.cons_append, intercalate_cons_data, List.map_append, List.flatten_append,
      ← List.append_assoc, List.getLast?_append]
    obtain ⟨pre, hpre⟩ := List.getLast?_eq_some_iff.mp hd
    have hflat : ([last].map (fun l => ',' :: ' ' :: l.data)).flatten
        = (',' :: ' ' :: pre) ++ [d] := by
      simp [hpre]
    rw [hflat, List.getLast?_concat]
    rfl

theorem labelsText_plain (labels : List String) (first last : String) (c d : Char)
    (hfirst : labels.head? = some first) (hc : first.data.head? = some c)
    (hcc : isCutsetChar c = false)
    (hlast : labels.getLast? = some last) (hd : last.data.getLast? = some d)
    (hdc : isCutsetChar d = false) :
    prettifyNilEmptyValues (Value.str (labelsText labels)) "None"
      = Value.str (", ".intercalate labels) := by
  have hh := intercalate_head labels first c hfirst hc
  have hl := intercalate_last labels last d hlast hd
  have ht : labelsText labels = ", ".intercalate labels := by
    rw [labelsText_eq_trim]
    apply String.ext
    exact trim_data_self _ c d hh hcc hl hdc
  have hne : ", ".intercalate labels ≠ "" := by
    intro h
    rw [h] at hh
    simp at hh
  rw [ht]
  simp [prettifyNilEmptyValues, hne]

theorem assigneesText_present (users : List User) :
    assigneesText (users.map some) = Except.ok (labelsText (users.map assigneeEntry)) := by
  have hf : (fun (acc : String) (a : User) =>
        acc ++ (" " ++ a.Username ++ "(" ++ a.Name ++ "),")) =
      (fun (acc : String) (a : User) => acc ++ (" " ++ assigneeEntry a ++ ",")) := by
    funext acc a
    have hsplit : ("),": String) = ")" ++ "," := by decide
    rw [hsplit]
    simp only [assigneeEntry, String.append_assoc]
  unfold assigneesText labelsText
  rw [assigneesLoop_present, List.foldl_map, hf]

theorem assigneeEntry_data (a : User) :
    (assigneeEntry a).data = a.Username.data ++ ('(' :: (a.Name.data ++ [')'])) := by
  unfold assigneeEntry
  simp only [String.data_append, List.append_assoc]
  rfl

theorem assigneesText_plain (users : List User) (first : User)
    (hfirst : users.head? = some first)
    (hname : ∀ c, first.Username.data.head? = some c → isCutsetChar c = false) :
    prettifyNilEmptyValues (Value.str (labelsText (users.map assigneeEntry))) "None"
      = Value.str (", ".intercalate (users.map assigneeEntry)) := by
  obtain ⟨tl, rfl⟩ := List.head?_eq_some_iff.mp hfirst
  have hlastEx : ∃ last, (first :: tl).getLast? = some last :=
    ⟨_, List.getLast?_eq_getLast _ (List.cons_ne_nil first tl)⟩
  obtain ⟨last, hlast⟩ := hlastEx
  have hhead : ∃ c, (assigneeEntry first).data.head? = some c ∧ isCutsetChar c = false := by
    rw [assigneeEntry_data]
    cases hU : first.Username.data with
    | nil => exact ⟨'(', rfl, by decide⟩
    | cons c rest => exact ⟨c, rfl, hname c (by rw [hU]; rfl)⟩
  obtain ⟨c, hc, hcc⟩ := hhead
  have hd : (assigneeEntry last).data.getLast? = some ')' := by
    rw [assigneeEntry_data, ← List.cons_append, ← List.append_assoc, List.getLast?_concat]
  refine labelsText_plain _ (assigneeEntry first) (assigneeEntry last) c ')' rfl hc hcc ?_ hd
    (by decide)
  rw [List.getLast?_map, hlast]
  rfl

/-! ## The claims -/

/-- C1: for every value `v` and default string `d`, `prettifyNilEmptyValues v d`
is `d` when `v` is nil or the empty string, is the boolean false (and not `d`)
when `v` is the boolean false, and is `v` itself in every other case. -/
theorem prettifyNilEmptyValues_cases (v : Value) (d : String) :
    ((v = Value.nil ∨ v = Value.str "") → prettifyNilEmptyValues v d = Value.str d) ∧
    (v = Value.bool false →
      prettifyNilEmptyValues v d = Value.bool false ∧ prettifyNilEmptyValues v d ≠ Value.str d) ∧
    (¬ (v = Value.nil ∨ v = Value.str "") → prettifyNilEmptyValues v d = v) := by
  refine ⟨fun h => by simp [prettifyNilEmptyValues, h], fun h => ?_, fun h => ?_⟩
  · subst h
    simp [prettifyNilEmptyValues]
  · unfold prettifyNilEmptyValues
    rw [if_neg h]
    split
    · rename_i hb
      exact hb.symm
    · rfl

/-- The three cases of C1 at the default `None`: an empty string, the boolean
false and a number. -/
theorem prettifyNilEmptyValues_cases_witness :
    prettifyNilEmptyValues (Value.str "") "None" = Value.str "None" ∧
    prettifyNilEmptyValues (Value.bool false) "None" = Value.bool false ∧
    prettifyNilEmptyValues (Value.int 3) "None" = Value.int 3 :=
  ⟨(prettifyNilEmptyValues_cases (Value.str "") "None").1 (Or.inr rfl),
   ((prettifyNilEmptyValues_cases (Value.bool false) "None").2.1 rfl).1,
   (prettifyNilEmptyValues_cases (Value.int 3) "None").2.2 (by decide)⟩

/-- C5: when the issue fetch succeeds and the web flag is set, `browser.Command`
is called exactly once, with the web URL of the fetched issue; nothing is
written and no notes are fetched, whatever the other flags are; the run
returns nil when the browser starts, and the error of the launcher (from
building the command or from running it) otherwise. -/
theorem web_gate (env : Env) (flags : Flags) (a : String) (issue : Issue)
    (hfetch : env.getIssue (resolveRepo env flags) (env.stringToInt a) = Except.ok issue)
    (hweb : flags.web = true) :
    (runE env flags [a]).trace.filter Effect.isBrowserCommand
      = [Effect.browserCommand issue.WebURL] ∧
    (runE env flags [a]).trace.countP Effect.isBrowserRun ≤ 1 ∧
    (∀ e ∈ (runE env flags [a]).trace, e.isOutput = false ∧ e.isNotesFetch = false) ∧
    (∀ c, env.browserCommand issue.WebURL = Except.ok c → env.browserRun c = none →
      runE env flags [a] =
        ⟨[Effect.getIssue (resolveRepo env flags) (env.stringToInt a),
          Effect.browserCommand issue.WebURL, Effect.browserRun c], Outcome.returned none⟩) ∧
    (∀ c err, env.browserCommand issue.WebURL = Except.ok c → env.browserRun c = some err →
      (runE env flags [a]).outcome = Outcome.returned (some err)) ∧
    (∀ err, env.browserCommand issue.WebURL = Except.error err →
      (runE env flags [a]).outcome = Outcome.returned (some err)) := by
  rw [runE_single, hfetch]
  simp only [hweb, if_true]
  cases hc : env.browserCommand issue.WebURL with
  | error err =>
    simp [Effect.isBrowserCommand, Effect.isBrowserRun, Effect.isOutput, Effect.isNotesFetch]
  | ok c =>
    simp only [Except.ok.injEq, forall_eq, reduceCtorEq, false_implies, implies_true,
      and_true]
    refine ⟨by simp [Effect.isBrowserCommand], by simp [Effect.isBrowserRun],
      by simp [Effect.isOutput, Effect.isNotesFetch], ?_, ?_⟩
    · intro c2 hc2 hr
      subst hc2
      rw [hr]
    · intro c2 err hc2 hr
      subst hc2
      rw [hr]

/-- The web gate on the `Fix crash` issue with `--web --comments`: the browser
is launched once with the web URL and the run returns nil. -/
theorem web_gate_witness :
    (runE (sampleEnv (Except.ok fixCrash) (Except.ok [carolNote])) webFlags ["42"]).trace.filter
        Effect.isBrowserCommand = [Effect.browserCommand "https://x/42"] ∧
    runE (sampleEnv (Except.ok fixCrash) (Except.ok [carolNote])) webFlags ["42"] =
      ⟨[Effect.getIssue "owner/repo" 42, Effect.browserCommand "https://x/42",
        Effect.browserRun "open https://x/42"], Outcome.returned none⟩ :=
  have h := web_gate (sampleEnv (Except.ok fixCrash) (Except.ok [carolNote])) webFlags "42"
    fixCrash rfl rfl
  ⟨h.1, h.2.2.2.1 "open https://x/42" rfl rfl⟩

/-- C7: when the issue fetch fails, the run returns that error and its only
effect is the fetch itself (nothing written, no browser, no notes fetch); when
the issue fetch succeeds, the web flag is unset, the comments flag is set and
the notes fetch is made and fails, the run returns the error of the notes
fetch, the header, the byline and the attribute table have been written before
the notes fetch, and nothing is written after it.  The notes fetch is made for
every issue that satisfies the data-model invariant. -/
theorem fetch_failures (env : Env) (flags : Flags) (a : String) :
    (∀ err, env.getIssue (resolveRepo env flags) (env.stringToInt a) = Except.error err →
      runE env flags [a] =
        ⟨[Effect.getIssue (resolveRepo env flags) (env.stringToInt a)],
          Outcome.returned (some err)⟩) ∧
    (∀ issue err,
      env.getIssue (resolveRepo env flags) (env.stringToInt a) = Except.ok issue →
      flags.web = false → flags.comments = true →
      Effect.listIssueNotes (resolveRepo env flags) (env.stringToInt a) (notesOptions flags)
        ∈ (runE env flags [a]).trace →
      env.listIssueNotes (resolveRepo env flags) (env.stringToInt a) (notesOptions flags)
        = Except.error err →
      ∃ author createdAt t,
        issue.Author = some author ∧ issue.CreatedAt = some createdAt ∧
        attributeTable env issue = Except.ok t ∧
        runE env flags [a] =
          ⟨[Effect.getIssue (resolveRepo env flags) (env.stringToInt a),
            Effect.colorPrintf "\n%s <gray>#%d</>\n" [Value.str issue.Title, Value.int issue.IID],
            Effect.colorPrintf "(%s)<gray> • opened by %s (%s) %s</>\n"
              [Value.str (if issue.State = "opened" then env.green issue.State
                  else env.red issue.State),
                Value.str author.Username, Value.str author.Name,
                Value.str (env.prettyTimeAgo (env.sub (env.now 0) createdAt))]]
            ++ (if issue.Description ≠ "" then
                  [Effect.println (env.renderMarkdown issue.Description)] else [])
            ++ [Effect.colorPrintf "\n<gray>%d upvotes • %d downvotes • %d comments</>\n\n"
                  [Value.int issue.Upvotes, Value.int issue.Downvotes,
                    Value.int issue.UserNotesCount],
                Effect.printlnTable t, Effect.printlnBlank,
                Effect.listIssueNotes (resolveRepo env flags) (env.stringToInt a)
                  (notesOptions flags)],
            Outcome.returned (some err)⟩) ∧
    (∀ issue,
      env.getIssue (resolveRepo env flags) (env.stringToInt a) = Except.ok issue →
      flags.web = false → flags.comments = true → issue.wellFormed →
      Effect.listIssueNotes (resolveRepo env flags) (env.stringToInt a) (notesOptions flags)
        ∈ (runE env flags [a]).trace) := by
  refine ⟨?_, ?_, ?_⟩
  · intro err hfetch
    rw [runE_single, hfetch]
  · intro issue err hfetch hweb hcom hmade hnotes
    have hp := (notes_fetch_made env flags a issue _ _ _ hfetch hweb hmade).1
    obtain ⟨author, createdAt, t, hA, hC, hT⟩ := renderSummary_complete env issue hp
    refine ⟨author, createdAt, t, hA, hC, hT, ?_⟩
    have hs := renderSummary_ok env issue author createdAt t hA hC hT
    rw [runE_rendered env flags a issue hfetch hweb hp, hs,
      renderComments_error env flags _ _ err hnotes]
    simp [hcom]
  · intro issue hfetch hweb hcom hwf
    obtain ⟨rest, hrest, -⟩ :=
      renderComments_trace env flags (resolveRepo env flags) (env.stringToInt a)
    rw [runE_rendered env flags a issue hfetch hweb (wellFormed_summary env issue hwf)]
    simp [hcom, hrest]

/-- Both failures of C7 on sample worlds: a failing issue fetch, and a failing
notes fetch after the summary of the `Fix crash` issue. -/
theorem fetch_failures_witness :
    runE (sampleEnv (Except.error "404 Not Found") (Except.ok [])) commentsFlags ["42"] =
      ⟨[Effect.getIssue "owner/repo" 42], Outcome.returned (some "404 Not Found")⟩ ∧
    (runE (sampleEnv (Except.ok fixCrash) (Except.error "500")) commentsFlags ["42"]).outcome =
      Outcome.returned (some "500") ∧
    (runE (sampleEnv (Except.ok fixCrash) (Except.error "500")) commentsFlags ["42"]).trace.getLast?
      = some (Effect.listIssueNotes "owner/repo" 42 ⟨1, 20, none, none⟩) :=
  ⟨(fetch_failures (sampleEnv (Except.error "404 Not Found") (Except.ok [])) commentsFlags
      "42").1 "404 Not Found" rfl,
   by
    obtain ⟨author, createdAt, t, -, -, -, h⟩ :=
      (fetch_failures (sampleEnv (Except.ok fixCrash) (Except.error "500")) commentsFlags
        "42").2.1 fixCrash "500" rfl rfl rfl (by decide) rfl
    rw [h]
    constructor
    · rfl
    · simp
      rfl⟩

/-- C9: the options of the notes fetch carry the page flag when it is not zero
and leave the page at zero when it is zero, and the same for the per-page flag;
page 2 and per-page 5 are forwarded as 2 and 5, the flag defaults as 1 and 20.
Every notes fetch of a run is made with the repository and the issue number of
the issue fetch and with these options, only when the comments flag is set; and
it is made, once, when the issue is rendered and the comments flag is set. -/
theorem notes_fetch_options (env : Env) (flags : Flags) (args : List String) :
    ((flags.page ≠ 0 → (notesOptions flags).Page = flags.page) ∧
      (flags.page = 0 → (notesOptions flags).Page = 0) ∧
      (flags.perPage ≠ 0 → (notesOptions flags).PerPage = flags.perPage) ∧
      (flags.perPage = 0 → (notesOptions flags).PerPage = 0) ∧
      (notesOptions flags).OrderBy = none ∧ (notesOptions flags).SortOrder = none) ∧
    notesOptions { initFlags with comments := true, page := 2, perPage := 5 }
      = ⟨2, 5, none, none⟩ ∧
    notesOptions { initFlags with comments := true } = ⟨1, 20, none, none⟩ ∧
    (∀ repo pid opt, Effect.listIssueNotes repo pid opt ∈ (runE env flags args).trace →
      flags.comments = true ∧ opt = notesOptions flags ∧
      (runE env flags args).trace.head? = some (Effect.getIssue repo pid) ∧
      (runE env flags args).trace.countP Effect.isNotesFetch = 1) ∧
    (flags.comments = false → ∀ e ∈ (runE env flags args).trace, e.isNotesFetch = false) ∧
    (∀ a issue, args = [a] →
      env.getIssue (resolveRepo env flags) (env.stringToInt a) = Except.ok issue →
      flags.web = false → flags.comments = true → issue.wellFormed →
      Effect.listIssueNotes (resolveRepo env flags) (env.stringToInt a) (notesOptions flags)
        ∈ (runE env flags args).trace) := by
  have hout : ∀ e : Effect, e.isOutput = true → e.isNotesFetch = false := by
    intro e he; cases e <;> simp_all [Effect.isOutput, Effect.isNotesFetch]
  refine ⟨?_, rfl, rfl, ?_, ?_, ?_⟩
  · unfold notesOptions ListIssueNotesOptions.zero
    by_cases hp : flags.page = 0 <;> by_cases hq : flags.perPage = 0 <;> simp [hp, hq]
  · intro repo pid opt hmem
    rcases runE_trace_cases env flags args with hnone | ⟨a, pre, rest, -, hc, -, htr, hpre, hrest⟩
    · exact absurd (hnone _ hmem) (by simp [Effect.isNotesFetch])
    · rw [htr] at hmem ⊢
      have hcp : ∀ l : List Effect, (∀ e ∈ l, e.isOutput = true) →
          l.countP Effect.isNotesFetch = 0 := by
        intro l hl
        rw [List.countP_eq_zero]
        intro e he
        simp [hout e (hl e he)]
      simp only [List.mem_cons, List.mem_append, reduceCtorEq, false_or] at hmem
      have hopt : repo = resolveRepo env flags ∧ pid = env.stringToInt a ∧
          opt = notesOptions flags := by
        rcases hmem with h | h | h
        · exact absurd (hout _ (hpre _ h)) (by simp [Effect.isNotesFetch])
        · simpa using h
        · exact absurd (hout _ (hrest _ h)) (by simp [Effect.isNotesFetch])
      obtain ⟨rfl, rfl, rfl⟩ := hopt
      refine ⟨hc, rfl, rfl, ?_⟩
      simp [List.countP_cons, List.countP_append, hcp pre hpre, hcp rest hrest,
        Effect.isNotesFetch]
  · intro hc e he
    rcases runE_trace_cases env flags args with hnone | ⟨a, pre, rest, -, hc2, -, -, -, -⟩
    · exact hnone e he
    · rw [hc] at hc2
      exact absurd hc2 (by simp)
  · intro a issue hargs hfetch hweb hcom hwf
    subst hargs
    obtain ⟨author, createdAt, t, hA, hC, hT⟩ := wellFormed_render env issue hwf
    have hs := renderSummary_ok env issue author createdAt t hA hC hT
    obtain ⟨rest, hrest, -⟩ :=
      renderComments_trace env flags (resolveRepo env flags) (env.stringToInt a)
    rw [runE_rendered env flags a issue hfetch hweb (by rw [hs])]
    simp [hcom, hrest]

/-- The forwarding of C9 on the `Fix crash` issue with `--comments`: the notes
fetch is made for the same repository and issue with page 1 and per-page 20. -/
theorem notes_fetch_options_witness :
    Effect.listIssueNotes "owner/repo" 42 ⟨1, 20, none, none⟩ ∈
      (runE (sampleEnv (Except.ok fixCrash) (Except.ok [])) commentsFlags ["42"]).trace :=
  (notes_fetch_options (sampleEnv (Except.ok fixCrash) (Except.ok [])) commentsFlags
    ["42"]).2.2.2.2.2 "42" fixCrash rfl rfl rfl rfl (by decide)

/-- C3: the rows added to the comment table are, in the order of the fetched
notes, a content row (the username of the author followed by a colon, then the
body, a newline and the relative age) and a spacer row holding one empty cell
for each note that is not system-generated, and nothing for a system-generated
note; the loop completes exactly when every note that is not system-generated
has an author and a timestamp, and the table printed by the comment listing
holds these rows. -/
theorem comment_rows (env : Env) (table : Table) (notes : List Note) :
    (∀ n, n.System = true → expectedNoteRows env n = []) ∧
    (∀ n author createdAt, n.System = false → n.Author = some author →
      n.CreatedAt = some createdAt →
      expectedNoteRows env n =
        [[Value.str (author.Username ++ ":"),
          Value.str (n.Body ++ "\n" ++ env.gray (env.timeToPrettyTimeAgo createdAt))],
         [Value.str ""]]) ∧
    (notesWellFormed notes →
      addNoteRows env table notes =
        Except.ok ⟨table.MaxColWidth, table.Wrap,
          table.Rows ++ (notes.filter (fun n => !n.System)).flatMap (expectedNoteRows env)⟩) ∧
    (∀ t, addNoteRows env table notes = Except.ok t → notesWellFormed notes) ∧
    (∀ flags repo pid, notesWellFormed notes → notes ≠ [] →
      env.listIssueNotes repo pid (notesOptions flags) = Except.ok notes →
      renderComments env flags repo pid =
        ⟨[Effect.listIssueNotes repo pid (notesOptions flags),
          Effect.println (env.heredocDoc commentsHeaderRaw),
          Effect.printlnTable ⟨100, true,
            (notes.filter (fun n => !n.System)).flatMap (expectedNoteRows env)⟩],
          Outcome.returned none⟩) := by
  refine ⟨fun n h => expectedNoteRows_system env n h,
    fun n author createdAt h hA hC => expectedNoteRows_comment env n author createdAt h hA hC,
    fun h => ?_, fun t h => addNoteRows_ok_wellFormed env notes table t h,
    fun flags repo pid h hne hfetch => ?_⟩
  · rw [addNoteRows_wellFormed env notes h table, flatMap_filter_comments]
  · rw [renderComments_nonempty env flags repo pid notes _ hfetch hne
      (addNoteRows_wellFormed env notes h ⟨100, true, []⟩), flatMap_filter_comments]
    simp

/-- The comment table of C3 for a system note, a comment of carol and another
system note: one content row and one spacer row. -/
theorem comment_rows_witness :
    addNoteRows (sampleEnv (Except.ok fixCrash) (Except.ok [])) ⟨100, true, []⟩
        [systemNote, carolNote, systemNote] =
      Except.ok ⟨100, true,
        [[Value.str "carol:", Value.str "Looks good\n1 hour ago"], [Value.str ""]]⟩ :=
  ((comment_rows (sampleEnv (Except.ok fixCrash) (Except.ok [])) ⟨100, true, []⟩
    [systemNote, carolNote, systemNote]).2.2.1 (by decide)).trans rfl

/-- C2 fails as stated: when the only fetched note is system-generated, the
filtered notes are empty, yet the run prints an empty comment table and never
prints the message. -/
theorem no_comments_message_counterexample :
    ([systemNote].filter (fun n => !n.System) = []) ∧
    (sampleEnv (Except.ok fixCrash) (Except.ok [systemNote])).listIssueNotes "owner/repo" 42
      (notesOptions commentsFlags) = Except.ok [systemNote] ∧
    Effect.println "There are no comments on this issue" ∉
      (runE (sampleEnv (Except.ok fixCrash) (Except.ok [systemNote])) commentsFlags
        ["42"]).trace ∧
    (runE (sampleEnv (Except.ok fixCrash) (Except.ok [systemNote])) commentsFlags
        ["42"]).trace.getLast? = some (Effect.printlnTable ⟨100, true, []⟩) :=
  ⟨rfl, rfl, by decide, rfl⟩

/-- C2, amended: after a successful notes fetch with the comments flag set, the
message `There are no comments on this issue` is printed, and no comment table,
when the fetched list is empty; when the list is not empty and every note of it
is system-generated, the comment header and a comment table without rows are
printed in place of the message. -/
theorem no_comments_message (env : Env) (flags : Flags) (a : String) (issue : Issue)
    (notes : List Note)
    (hfetch : env.getIssue (resolveRepo env flags) (env.stringToInt a) = Except.ok issue)
    (hweb : flags.web = false) (hcom : flags.comments = true)
    (hmade : Effect.listIssueNotes (resolveRepo env flags) (env.stringToInt a)
      (notesOptions flags) ∈ (runE env flags [a]).trace)
    (hnotes : env.listIssueNotes (resolveRepo env flags) (env.stringToInt a)
      (notesOptions flags) = Except.ok notes) :
    (notes = [] →
      runE env flags [a] =
        ⟨Effect.getIssue (resolveRepo env flags) (env.stringToInt a) ::
          ((renderSummary env issue).trace ++
            [Effect.listIssueNotes (resolveRepo env flags) (env.stringToInt a)
                (notesOptions flags),
              Effect.println (env.heredocDoc commentsHeaderRaw),
              Effect.println "There are no comments on this issue"]),
          Outcome.returned none⟩) ∧
    (notes ≠ [] → (∀ n ∈ notes, n.System = true) →
      runE env flags [a] =
        ⟨Effect.getIssue (resolveRepo env flags) (env.stringToInt a) ::
          ((renderSummary env issue).trace ++
            [Effect.listIssueNotes (resolveRepo env flags) (env.stringToInt a)
                (notesOptions flags),
              Effect.println (env.heredocDoc commentsHeaderRaw),
              Effect.printlnTable ⟨100, true, []⟩]),
          Outcome.returned none⟩) := by
  have hrun := runE_rendered env flags a issue hfetch hweb
    (notes_fetch_made env flags a issue _ _ _ hfetch hweb hmade).1
  simp only [hcom, if_true] at hrun
  constructor
  · intro hn
    subst hn
    rw [hrun, renderComments_empty env flags _ _ hnotes]
    rfl
  · intro hne hall
    have hw : notesWellFormed notes := by
      intro n hn hs
      rw [hall n hn] at hs
      exact absurd hs (by simp)
    have hrows := addNoteRows_wellFormed env notes hw ⟨100, true, []⟩
    rw [flatMap_allSystem env notes hall] at hrows
    rw [hrun, renderComments_nonempty env flags _ _ notes _ hnotes hne hrows]
    rfl

/-- The amended C2 on an empty page of notes: the message is the last thing
printed. -/
theorem no_comments_message_witness :
    (runE (sampleEnv (Except.ok fixCrash) (Except.ok [])) commentsFlags ["42"]).trace.getLast?
      = some (Effect.println "There are no comments on this issue") := by
  rw [(no_comments_message (sampleEnv (Except.ok fixCrash) (Except.ok [])) commentsFlags "42"
    fixCrash [] rfl rfl rfl (by decide) rfl).1 rfl]
  decide

/-- C4: the attribute table of a rendered issue has a `Closed By:` row exactly
when the state is `closed`, and none when the state is `opened`; the row holds
the username of the closer, the display name in parentheses and the relative
time since closing, and stands right after the Subscribed row and right before
the Reference row.  The table is built for every issue that satisfies the
data-model invariant, and it is the table printed by the run. -/
theorem closed_by_row (env : Env) (issue : Issue) :
    (issue.wellFormed → ∃ t, attributeTable env issue = Except.ok t) ∧
    (∀ t, attributeTable env issue = Except.ok t →
      ((∃ row ∈ t.Rows, row.head? = some (Value.str "Closed By:")) ↔ issue.State = "closed") ∧
      (issue.State = "opened" →
        ∀ row ∈ t.Rows, row.head? ≠ some (Value.str "Closed By:")) ∧
      (issue.State = "closed" → ∃ closedAt closedBy references pre,
        issue.ClosedAt = some closedAt ∧ issue.ClosedBy = some closedBy ∧
        issue.References = some references ∧
        t.Rows = pre ++
          [[Value.str "Subscribed:",
              prettifyNilEmptyValues (Value.bool issue.Subscribed) "false"],
            [Value.str "Closed By:",
              Value.str (closedBy.Username ++ " (" ++ closedBy.Name ++ ") "
                ++ env.prettyTimeAgo (env.sub (env.now 1) closedAt))],
            [Value.str "Reference:", Value.str references.Full],
            [Value.str "Web URL:", Value.str issue.WebURL]] ∧
        ∀ row ∈ pre, row.head? ≠ some (Value.str "Closed By:"))) ∧
    (∀ flags a t,
      env.getIssue (resolveRepo env flags) (env.stringToInt a) = Except.ok issue →
      flags.web = false → issue.Author.isSome = true → issue.CreatedAt.isSome = true →
      attributeTable env issue = Except.ok t →
      Effect.printlnTable t ∈ (runE env flags [a]).trace) := by
  refine ⟨fun hwf => ?_, fun t ht => ?_, fun flags a t hfetch hweb hA hC ht => ?_⟩
  · obtain ⟨_, _, t, _, _, hT⟩ := wellFormed_render env issue hwf
    exact ⟨t, hT⟩
  · obtain ⟨assignees, references, -, hr, hcases⟩ := attributeTable_ok_cases env issue t ht
    have hbase := baseTable_no_closedBy issue assignees
    rcases hcases with ⟨hs, rfl⟩ | ⟨hs, closedAt, closedBy, hAt, hBy, rfl⟩
    · have hno : ∀ row ∈ (baseTable issue assignees).Rows ++
          [[Value.str "Reference:", Value.str references.Full],
           [Value.str "Web URL:", Value.str issue.WebURL]],
          row.head? ≠ some (Value.str "Closed By:") := by
        intro row hrow
        rcases List.mem_append.mp hrow with h | h
        · exact hbase row h
        · simp only [List.mem_cons, List.mem_singleton, List.not_mem_nil, or_false] at h
          rcases h with h | h <;> subst h <;>
            simp only [List.head?_cons, ne_eq, Option.some.injEq, Value.str.injEq] <;> decide
      refine ⟨⟨fun ⟨row, hrow, hhead⟩ => absurd hhead (hno row hrow), fun h => absurd h hs⟩,
        fun _ => hno, fun h => absurd h hs⟩
    · refine ⟨⟨fun _ => hs, fun _ =>
          ⟨[Value.str "Closed By:",
              Value.str (closedBy.Username ++ " (" ++ closedBy.Name ++ ") "
                ++ env.prettyTimeAgo (env.sub (env.now 1) closedAt))], ?_, rfl⟩⟩,
        fun ho => ?_, fun _ => ?_⟩
      · simp
      · rw [hs] at ho
        exact absurd ho (by decide)
      · refine ⟨closedAt, closedBy, references, (baseTable issue assignees).Rows.dropLast,
          hAt, hBy, hr, ?_, ?_⟩
        · simp only [(baseTable_shape issue assignees).2.2]
          rfl
        · intro row hrow
          exact hbase row (List.mem_of_mem_dropLast hrow)
  · obtain ⟨author, hA⟩ := Option.isSome_iff_exists.mp hA
    obtain ⟨createdAt, hC⟩ := Option.isSome_iff_exists.mp hC
    have hs := renderSummary_ok env issue author createdAt t hA hC ht
    rw [runE_rendered env flags a issue hfetch hweb (by rw [hs]), hs]
    by_cases hc : flags.comments = true <;> simp [hc]

/-- The table of C4 for the closed sample issue: the `Closed By:` row of bob
follows the Subscribed row and precedes the Reference row. -/
theorem closed_by_row_witness :
    ∃ t pre,
      attributeTable (sampleEnv (Except.ok closedCrash) (Except.ok [])) closedCrash
        = Except.ok t ∧
      t.Rows = pre ++
        [[Value.str "Subscribed:", Value.bool false],
         [Value.str "Closed By:", Value.str "bob (Bob B) 2 hours ago"],
         [Value.str "Reference:", Value.str "#42"],
         [Value.str "Web URL:", Value.str "https://x/42"]] := by
  have hT := attributeTable_closed (sampleEnv (Except.ok closedCrash) (Except.ok []))
    closedCrash "carol(Carol C)" ⟨"#42"⟩ 3600 ⟨"bob", "Bob B"⟩ rfl rfl rfl rfl rfl
  obtain ⟨closedAt, closedBy, references, pre, hAt, hBy, hR, hrows, -⟩ :=
    ((closed_by_row (sampleEnv (Except.ok closedCrash) (Except.ok [])) closedCrash).2.1
      _ hT).2.2 rfl
  cases hAt
  cases hBy
  cases hR
  exact ⟨_, pre, hT, hrows⟩

/-- C6 does not hold of the code: for an issue without labels and assignees,
with a nil milestone, a nil due date, weight 0 and the three flags false, the
rows show `None` for Labels and Assignees and the boolean false for
Confidential, Discussion Locked and Subscribed, but the Milestone and Due date
rows hold the nil pointers themselves (printed `<nil>`) and the Weight row the
number 0, none of them `None`: a pointer or an int in an `interface{}` is
neither the untyped nil nor the empty string. -/
theorem absent_values_rows (env : Env) (issue : Issue)
    (hL : issue.Labels = []) (hA : issue.Assignees = [])
    (hM : issue.Milestone = none) (hD : issue.DueDate = none) (hW : issue.Weight = 0)
    (hC : issue.Confidential = false) (hDL : issue.DiscussionLocked = false)
    (hS : issue.Subscribed = false) :
    assigneesText issue.Assignees = Except.ok "" ∧
    (baseTable issue "").Rows =
      [[Value.str "Project ID:", Value.int issue.ProjectID],
       [Value.str "Labels:", Value.str "None"],
       [Value.str "Milestone:", Value.other "*gitlab.Milestone" "<nil>"],
       [Value.str "Assignees:", Value.str "None"],
       [Value.str "Due date:", Value.other "*gitlab.ISOTime" "<nil>"],
       [Value.str "Weight:", Value.int 0],
       [Value.str "Confidential:", Value.bool false],
       [Value.str "Discussion Locked:", Value.bool false],
       [Value.str "Subscribed:", Value.bool false]] ∧
    (∀ t, attributeTable env issue = Except.ok t →
      ∃ rest, t.Rows = (baseTable issue "").Rows ++ rest) := by
  have hs : assigneesText issue.Assignees = Except.ok "" := by
    rw [hA]
    rfl
  refine ⟨hs, ?_, ?_⟩
  · have hl : labelsText [] = "" := by decide
    rw [(baseTable_shape issue "").2.2, hL, hM, hD, hW, hC, hDL, hS, hl]
    rfl
  · intro t hT
    obtain ⟨assignees, references, hs2, -, hcases⟩ := attributeTable_ok_cases env issue t hT
    rw [hs] at hs2
    cases hs2
    rcases hcases with ⟨_, rfl⟩ | ⟨_, _, _, _, _, rfl⟩
    · exact ⟨_, rfl⟩
    · exact ⟨_, rfl⟩

/-- The rows of the `Fix crash` issue, where C6 expects `None` three more
times: `<nil>` for Milestone and Due date, 0 for Weight. -/
theorem absent_values_rows_witness :
    (baseTable fixCrash "").Rows =
      [[Value.str "Project ID:", Value.int 7],
       [Value.str "Labels:", Value.str "None"],
       [Value.str "Milestone:", Value.other "*gitlab.Milestone" "<nil>"],
       [Value.str "Assignees:", Value.str "None"],
       [Value.str "Due date:", Value.other "*gitlab.ISOTime" "<nil>"],
       [Value.str "Weight:", Value.int 0],
       [Value.str "Confidential:", Value.bool false],
       [Value.str "Discussion Locked:", Value.bool false],
       [Value.str "Subscribed:", Value.bool false]] :=
  (absent_values_rows (sampleEnv (Except.ok fixCrash) (Except.ok [])) fixCrash rfl rfl
    rfl rfl rfl rfl rfl rfl).2.1

/-- C8 fails as stated: for the labels `a` and `b,` the Labels row shows
`a, b` although the labels joined with a comma and a space are `a, b,`; for an
assignee whose username begins with a space the Assignees row drops that
space; and for a single empty label the row shows `None` although the sequence
is not empty. -/
theorem joined_rows_counterexample :
    prettifyNilEmptyValues (Value.str (labelsText ["a", "b,"])) "None" = Value.str "a, b" ∧
    ", ".intercalate ["a", "b,"] = "a, b," ∧
    assigneesText [some ⟨" bob", "Bob B"⟩] = Except.ok "bob(Bob B)" ∧
    prettifyNilEmptyValues (Value.str "bob(Bob B)") "None" = Value.str "bob(Bob B)" ∧
    ", ".intercalate ([(⟨" bob", "Bob B"⟩ : User)].map assigneeEntry) = " bob(Bob B)" ∧
    prettifyNilEmptyValues (Value.str (labelsText [""])) "None" = Value.str "None" :=
  ⟨by decide, by decide, rfl, by decide, by decide, by decide⟩

/-- C8, amended: the Labels row shows the labels joined with a comma and a
space, in their order, without the leading and trailing spaces and commas of
the joined text, or `None` when nothing is left, as for the empty sequence; it
shows the plain join when the first label begins and the last label ends with
a character that is neither a space nor a comma.  The Assignees row does the
same with the texts `username(display name)` of the assignees, and shows the
plain join when the first username does not begin with a space or a comma. -/
theorem joined_rows (env : Env) (issue : Issue) :
    (∀ t, attributeTable env issue = Except.ok t →
      ∃ assignees, assigneesText issue.Assignees = Except.ok assignees ∧
        [Value.str "Labels:",
          prettifyNilEmptyValues (Value.str (labelsText issue.Labels)) "None"] ∈ t.Rows ∧
        [Value.str "Assignees:", prettifyNilEmptyValues (Value.str assignees) "None"]
          ∈ t.Rows) ∧
    (∀ assignees : String,
      [Value.str "Labels:", prettifyNilEmptyValues (Value.str (labelsText issue.Labels)) "None"]
        ∈ (baseTable issue assignees).Rows ∧
      [Value.str "Assignees:", prettifyNilEmptyValues (Value.str assignees) "None"]
        ∈ (baseTable issue assignees).Rows) ∧
    labelsText issue.Labels = stringsTrim (", ".intercalate issue.Labels) ", " ∧
    (∀ users : List User, issue.Assignees = users.map some →
      assigneesText issue.Assignees
        = Except.ok (stringsTrim (", ".intercalate (users.map assigneeEntry)) ", ")) ∧
    (∀ s : String, prettifyNilEmptyValues (Value.str s) "None"
      = if s = "" then Value.str "None" else Value.str s) ∧
    (issue.Labels = [] →
      prettifyNilEmptyValues (Value.str (labelsText issue.Labels)) "None" = Value.str "None") ∧
    (issue.Assignees = [] →
      ∃ assignees, assigneesText issue.Assignees = Except.ok assignees ∧
        prettifyNilEmptyValues (Value.str assignees) "None" = Value.str "None") ∧
    (∀ first last c d, issue.Labels.head? = some first → first.data.head? = some c →
      isCutsetChar c = false → issue.Labels.getLast? = some last →
      last.data.getLast? = some d → isCutsetChar d = false →
      prettifyNilEmptyValues (Value.str (labelsText issue.Labels)) "None"
        = Value.str (", ".intercalate issue.Labels)) ∧
    (∀ (users : List User) (first : User),
      issue.Assignees = users.map some → users.head? = some first →
      (∀ c, first.Username.data.head? = some c → isCutsetChar c = false) →
      ∃ assignees, assigneesText issue.Assignees = Except.ok assignees ∧
        prettifyNilEmptyValues (Value.str assignees) "None"
          = Value.str (", ".intercalate (users.map assigneeEntry))) := by
  refine ⟨?_, ?_, labelsText_eq_trim issue.Labels, ?_, ?_, ?_, ?_, ?_, ?_⟩
  · intro t hT
    obtain ⟨assignees, references, hs, -, hcases⟩ := attributeTable_ok_cases env issue t hT
    refine ⟨assignees, hs, ?_, ?_⟩ <;>
      rcases hcases with ⟨_, rfl⟩ | ⟨_, _, _, _, _, rfl⟩ <;>
      simp [(baseTable_shape issue assignees).2.2]
  · intro assignees
    rw [(baseTable_shape issue assignees).2.2]
    simp
  · intro users hU
    rw [hU, assigneesText_present, labelsText_eq_trim]
  · intro s
    by_cases hs : s = "" <;> simp [prettifyNilEmptyValues, hs]
  · intro h
    rw [h]
    decide
  · intro h
    rw [h]
    exact ⟨"", rfl, by decide⟩
  · intro first last c d hfirst hc hcc hlast hd hdc
    exact labelsText_plain issue.Labels first last c d hfirst hc hcc hlast hd hdc
  · intro users first hU hfirst hname
    rw [hU, assigneesText_present]
    exact ⟨_, rfl, assigneesText_plain users first hfirst hname⟩

/-- The amended C8 on the closed sample issue: the labels `bug` and `ui` are
shown as `bug, ui`, the assignee carol as `carol(Carol C)`. -/
theorem joined_rows_witness :
    prettifyNilEmptyValues (Value.str (labelsText closedCrash.Labels)) "None"
      = Value.str "bug, ui" ∧
    (∃ assignees, assigneesText closedCrash.Assignees = Except.ok assignees ∧
      prettifyNilEmptyValues (Value.str assignees) "None" = Value.str "carol(Carol C)") :=
  ⟨((joined_rows (sampleEnv (Except.ok closedCrash) (Except.ok [])) closedCrash).2.2.2.2.2.2.2.1
      "bug" "ui" 'b' 'i' rfl rfl (by decide) rfl rfl (by decide)).trans (by decide),
   by
    obtain ⟨assignees, hs, hv⟩ :=
      (joined_rows (sampleEnv (Except.ok closedCrash) (Except.ok [])) closedCrash).2.2.2.2.2.2.2.2
        [⟨"carol", "Carol C"⟩] ⟨"carol", "Carol C"⟩ rfl rfl (fun c h => by cases h; decide)
    exact ⟨assignees, hs, hv.trans (by decide)⟩⟩

end Glab
